import Mathlib

/-!
Verification development for the LegalClear repository.

The frontend source (upload form, chat components, API client) is embedded
directly; JavaScript strings are modelled as Lean `String`s (character
lists), machine-local maps (`localStorage`, assoc stores) as association
lists.  The HTTP backend is not part of the repository's visible sources,
so the document-lifecycle and chat-persistence operations are modelled
from the specification (each such definition is marked
`Modelled from the spec:` in its doc comment).
-/

namespace LegalClear

/-! ## Upload validation (UploadDocument.handleFile) -/

/-- A selected file, as the upload form sees it: `name`, MIME `type`
and `size` in bytes. -/
structure FileInfo where
  name : String
  type : String
  size : Nat
deriving Repr, DecidableEq

/-- The MIME allow-list from `UploadDocument.handleFile`
(`allowedTypes` in both copies of the component). -/
def allowedTypes : List String :=
  ["application/pdf",
   "application/msword",
   "application/vnd.openxmlformats-officedocument.wordprocessingml.document",
   "text/plain"]

/-- Outcome of the two validation checks in `handleFile`: the type check
runs first (toast "Invalid file type"), the size check second
(toast "File too large"). -/
inductive UploadValidation where
  | invalidType
  | tooLarge
  | accepted
deriving Repr, DecidableEq

/-- The validation sequence of `handleFile`: reject when the MIME type is
not in the allow-list, then reject when `file.size > 10 * 1024 * 1024`,
otherwise accept. -/
def validateFile (file : FileInfo) : UploadValidation :=
  if ¬ allowedTypes.contains file.type then .invalidType
  else if file.size > 10 * 1024 * 1024 then .tooLarge
  else .accepted

/-- Embedding of the JavaScript `name.replace(/\.[^/.]+$/, "")`:
length of the matched suffix (a dot followed by a nonempty run of
characters that are neither `.` nor `/`, anchored at the end), computed
on the reversed character list; `none` when the regex does not match. -/
def extMatchLen (rev : List Char) : Option Nat :=
  let run := rev.takeWhile (fun c => c ≠ '.' && c ≠ '/')
  match rev.drop run.length with
  | '.' :: _ => if run.length = 0 then none else some (run.length + 1)
  | _ => none

/-- `stripExt s` is `s.replace(/\.[^/.]+$/, "")`: the final extension
(including its dot) removed when present, `s` unchanged otherwise. -/
def stripExt (s : String) : String :=
  match extMatchLen s.data.reverse with
  | some n => String.mk (s.data.reverse.drop n).reverse
  | none => s

/-- The upload form's state touched by `handleFile`: the selected file
and the three text fields. -/
structure UploadFormState where
  file : Option FileInfo
  documentName : String
  documentType : String
  notes : String
deriving Repr, DecidableEq

/-- `UploadDocument.handleFile` (identical logic in both copies of the
component): on a validation failure only a toast fires and the state is
unchanged; on success the file is stored and, when the document-name
field is empty, it is prefilled with the file name minus its final
extension. -/
def handleFile (st : UploadFormState) (file : FileInfo) : UploadFormState :=
  match validateFile file with
  | .invalidType => st
  | .tooLarge => st
  | .accepted =>
      let st1 := { st with file := some file }
      if st1.documentName = "" then
        { st1 with documentName := stripExt file.name }
      else st1

/-! ## API client (services/api.js) -/

/-- A failed HTTP response as the axios interceptor sees it:
`status` is `none` when there was no response at all
(`error.response` undefined), `detail` is the response body's
`detail` field (`none` when absent). -/
structure RespError where
  status : Option Nat
  detail : Option String
deriving Repr, DecidableEq

/-- What the response interceptor surfaces to callers: either a fresh
`Error(msg)` or the original error re-thrown unchanged. -/
inductive SurfacedError where
  | message (msg : String)
  | rethrown (e : RespError)
deriving Repr, DecidableEq

/-- JavaScript `v || fallback` on an optional string field: the string
when present and truthy (non-empty), the fallback when the field is
absent or the empty string. -/
def jsStringOr (v : Option String) (fallback : String) : String :=
  match v with
  | some s => if s = "" then fallback else s
  | none => fallback

/-- `error.response?.status >= 500`: with optional chaining an absent
response compares as `undefined >= 500`, which is false. -/
def isServerError (status : Option Nat) : Bool :=
  match status with
  | some s => 500 ≤ s
  | none => false

/-- The error branch of `apiClient.interceptors.response`: 404, 400 and
`>= 500` are mapped to fixed messages (400 using the body's `detail`
via `||`), anything else is re-thrown unchanged. -/
def handleResponseError (e : RespError) : SurfacedError :=
  if e.status = some 404 then
    .message "Resource not found"
  else if e.status = some 400 then
    .message (jsStringOr e.detail "Bad request")
  else if isServerError e.status then
    .message "Server error. Please try again later."
  else
    .rethrown e

/-- `rawBackendUrl.endsWith("/")`: for the one-character suffix `"/"`
this is exactly "the last character is a slash". -/
def endsWithSlash (s : String) : Bool :=
  s.data.getLast? = some '/'

/-- The base-URL normalization in `services/api.js`:
`rawBackendUrl.endsWith("/") ? rawBackendUrl.slice(0, -1) : rawBackendUrl`
(`slice(0, -1)` drops the final character). -/
def normalizeBackendUrl (raw : String) : String :=
  if endsWithSlash raw then String.mk raw.data.dropLast else raw

/-- `const API = BACKEND_URL + "/api"`; an unset environment variable
gives `raw = ""`. -/
def apiBase (raw : String) : String :=
  normalizeBackendUrl raw ++ "/api"

/-! ## Chat UI components -/

/-- A chat message as the frontend renders it (`type` is `"user"` or
`"assistant"`). -/
structure ChatMsg where
  id : String
  type : String
  message : String
  timestamp : String
deriving Repr, DecidableEq

/-- JavaScript `String.prototype.trim()`: whitespace removed from both
ends (written over character lists so that it evaluates by kernel
reduction). -/
def jsTrim (s : String) : String :=
  String.mk
    (((s.data.dropWhile Char.isWhitespace).reverse.dropWhile
        Char.isWhitespace).reverse)

/-- The user message object built inside both `handleSendMessage`
implementations: `{ id, type: "user", message: <input>, timestamp }`. -/
def mkUserMessage (idStr timestamp text : String) : ChatMsg :=
  { id := idStr, type := "user", message := text, timestamp := timestamp }

/-- The chat-relevant component state: message list, input box content,
loading flag. -/
structure ChatUIState where
  chatMessages : List ChatMsg
  chatInput : String
  chatLoading : Bool
deriving Repr, DecidableEq

/-- Result of the awaited `chatAPI.sendMessage` call: the assistant
reply, or a thrown error. -/
inductive SendOutcome where
  | ok (reply : ChatMsg)
  | err
deriving Repr, DecidableEq

namespace DocumentAnalysis

/-- `DocumentAnalysis.handleSendMessage`, sequentially: bail out when the
trimmed input is empty or a send is in flight; otherwise append the user
message optimistically and clear the input; when the send succeeds append
the reply; when it fails drop the last message (`prev.slice(0, -1)`) and
restore the input.  `idStr`/`ts` stand for `Date.now().toString()` and
`new Date().toISOString()`. -/
def handleSendMessage (st : ChatUIState) (idStr ts : String)
    (outcome : SendOutcome) : ChatUIState :=
  if jsTrim st.chatInput = "" || st.chatLoading then st
  else
    let userMessage := mkUserMessage idStr ts st.chatInput
    let optimistic := st.chatMessages ++ [userMessage]
    match outcome with
    | .ok reply =>
        { chatMessages := optimistic ++ [reply],
          chatInput := "",
          chatLoading := false }
    | .err =>
        { chatMessages := optimistic.dropLast,
          chatInput := st.chatInput,
          chatLoading := false }

end DocumentAnalysis

namespace DocumentChat

/-- `DocumentChat.handleSendMessage`: bail out when the trimmed input is
empty; on success append `[userMessage, response]` in one update and
clear the input; on failure the catch block does nothing, so neither the
message list nor the input changes. -/
def handleSendMessage (st : ChatUIState) (idStr ts : String)
    (outcome : SendOutcome) : ChatUIState :=
  if jsTrim st.chatInput = "" then st
  else
    match outcome with
    | .ok reply =>
        { chatMessages :=
            st.chatMessages ++ [mkUserMessage idStr ts st.chatInput, reply],
          chatInput := "",
          chatLoading := false }
    | .err =>
        { st with chatLoading := false }

end DocumentChat

/-- The session-identifier initializer shared by `DocumentAnalysis` and
`DocumentChat`: look `chat_session_<documentId>` up in `localStorage`
(modelled as an association list, most recent write first).  The JS
`if (existing) return existing;` reuses the stored value only when it is
truthy — present and non-empty; when the key is absent (`getItem`
returns `null`) or the stored value is the empty string, a fresh id is
generated, stored and returned (`newId` stands for
`Math.random().toString(36).slice(2)`, which is the empty string exactly
when `Math.random()` returns 0).  Returns the session id together with
the updated storage. -/
def getOrCreateSessionId (store : List (String × String))
    (documentId newId : String) : String × List (String × String) :=
  let key := "chat_session_" ++ documentId
  match store.lookup key with
  | some existing =>
      if existing ≠ "" then (existing, store)
      else (newId, (key, newId) :: store)
  | none => (newId, (key, newId) :: store)

/-! ## Backend model

The HTTP backend is not among the repository's visible sources (only the
frontend and a contracts document are); the lifecycle and chat-persistence
operations below are therefore modelled from the specification. -/

/-- Modelled from the spec: the Document status enum
`{uploaded, analyzing, analyzed, error}`. -/
inductive DocStatus where
  | uploaded
  | analyzing
  | analyzed
  | error
deriving Repr, DecidableEq

/-- Modelled from the spec: the Analysis risk-level enum. -/
inductive RiskLevel where
  | low
  | medium
  | high
deriving Repr, DecidableEq

/-- Modelled from the spec: a key term entry of an Analysis. -/
structure KeyTerm where
  term : String
  definition : String
  importance : String
  location : String
deriving Repr, DecidableEq

/-- Modelled from the spec: a red-flag entry of an Analysis. -/
structure RedFlag where
  issue : String
  explanation : String
  severity : String
deriving Repr, DecidableEq

/-- Modelled from the spec: a simplified section of an Analysis. -/
structure SimplifiedSection where
  title : String
  content : String
deriving Repr, DecidableEq

/-- Modelled from the spec: the Analysis record persisted for a document
(scores, risk level, read time, concerns, recommendations, key terms,
red flags, simplified sections). -/
structure AnalysisRec where
  overallScore : Rat
  readabilityScore : Rat
  fairnessScore : Rat
  riskLevel : RiskLevel
  estimatedReadTime : String
  topConcerns : List String
  recommendations : List String
  keyTerms : List KeyTerm
  redFlags : List RedFlag
  simplifiedSections : List SimplifiedSection
deriving Repr, DecidableEq

/-- Modelled from the spec: a persisted chat message, keyed by document
and session, with a role (`"user"`/`"assistant"`), text and timestamp. -/
structure ChatRecord where
  documentId : String
  sessionId : String
  role : String
  message : String
  timestamp : Nat
deriving Repr, DecidableEq

/-- Modelled from the spec: the document store, holding document
statuses, analysis records (one-to-one, by document id), the chat log in
insertion order, and the set of identifiers ever issued (identifiers are
opaque and unique, so an id is never reused after deletion). -/
structure BackendState where
  docs : List (String × DocStatus)
  analyses : List (String × AnalysisRec)
  chats : List ChatRecord
  usedIds : List String
deriving Repr, DecidableEq

/-- First-match association-list lookup (the store is keyed by opaque
string identifiers). -/
def alookup {β : Type} : List (String × β) → String → Option β
  | [], _ => none
  | (k, v) :: rest, key => if k = key then some v else alookup rest key

/-- Replace the status of every record with the given document id. -/
def setStatus : List (String × DocStatus) → String → DocStatus →
    List (String × DocStatus)
  | [], _, _ => []
  | (k, v) :: rest, docId, st =>
      (if k = docId then (k, st) else (k, v)) :: setStatus rest docId st

/-- Remove every record with the given key (cascade deletion). -/
def eraseKey {β : Type} : List (String × β) → String → List (String × β)
  | [], _ => []
  | (k, v) :: rest, docId =>
      if k = docId then eraseKey rest docId
      else (k, v) :: eraseKey rest docId

/-- Remove every chat record of the given document (cascade deletion). -/
def eraseDocChats : List ChatRecord → String → List ChatRecord
  | [], _ => []
  | m :: rest, docId =>
      if m.documentId = docId then eraseDocChats rest docId
      else m :: eraseDocChats rest docId

/-- Modelled from the spec: the error taxonomy surfaced by the API
(`InvalidInput`, `NotFound`, extraction/analysis failure). -/
inductive ApiError where
  | invalidInput
  | notFound
  | analysisFailed
deriving Repr, DecidableEq

/-- Modelled from the spec: `getDocument(id)`, failing with `NotFound`
when the id is absent. -/
def getDocument (s : BackendState) (docId : String) :
    Except ApiError DocStatus :=
  match alookup s.docs docId with
  | some st => .ok st
  | none => .error .notFound

/-- Modelled from the spec: `getAnalysis(id)`, failing with `NotFound`
when the document has no Analysis record. -/
def getAnalysis (s : BackendState) (docId : String) :
    Except ApiError AnalysisRec :=
  match alookup s.analyses docId with
  | some a => .ok a
  | none => .error .notFound

/-- Modelled from the spec: `getHistory(documentId, sessionId)` — the
chat records of that document and session, in insertion order; an empty
list (not an error) when none exist. -/
def getHistory (s : BackendState) (docId sessionId : String) :
    List ChatRecord :=
  s.chats.filter (fun m => m.documentId == docId && m.sessionId == sessionId)

/-- Modelled from the spec: `postMessage(documentId, sessionId, text)` —
`NotFound` when the document does not exist; otherwise the user message
and the assistant reply are appended, in that order, and the assistant
record is returned. -/
def postMessage (s : BackendState) (docId sessionId text reply : String)
    (t : Nat) : Except ApiError (BackendState × ChatRecord) :=
  match alookup s.docs docId with
  | none => .error .notFound
  | some _ =>
      let userRec : ChatRecord := ⟨docId, sessionId, "user", text, t⟩
      let asstRec : ChatRecord := ⟨docId, sessionId, "assistant", reply, t⟩
      .ok ({ s with chats := s.chats ++ [userRec, asstRec] }, asstRec)

/-- Modelled from the spec: `deleteDocument(id)` — removes the document
and cascades to its Analysis and chat records; the identifier stays
used. -/
def removeDocument (s : BackendState) (docId : String) : BackendState :=
  { s with docs := eraseKey s.docs docId,
           analyses := eraseKey s.analyses docId,
           chats := eraseDocChats s.chats docId }

/-- Modelled from the spec: the transitions of the document store.
Uploading creates a fresh document with status `uploaded`; the lifecycle
manager moves it to `analyzing`, then — atomically with persisting the
Analysis — to `analyzed`; extraction or collaborator failure moves a
non-terminal document to `error`; chat appends messages; deletion
cascades. -/
inductive Step : BackendState → BackendState → Prop
  | upload (s : BackendState) (docId : String)
      (h : docId ∉ s.usedIds) :
      Step s { s with docs := (docId, .uploaded) :: s.docs,
                      usedIds := docId :: s.usedIds }
  | startAnalysis (s : BackendState) (docId : String)
      (h : alookup s.docs docId = some .uploaded) :
      Step s { s with docs := setStatus s.docs docId .analyzing }
  | finishAnalysis (s : BackendState) (docId : String) (a : AnalysisRec)
      (h : alookup s.docs docId = some .analyzing) :
      Step s { s with docs := setStatus s.docs docId .analyzed,
                      analyses := (docId, a) :: s.analyses }
  | fail (s : BackendState) (docId : String) (st : DocStatus)
      (h : alookup s.docs docId = some st)
      (hnt : st = .uploaded ∨ st = .analyzing) :
      Step s { s with docs := setStatus s.docs docId .error }
  | chat (s : BackendState) (docId sessionId text reply : String) (t : Nat)
      (s' : BackendState) (m : ChatRecord)
      (h : postMessage s docId sessionId text reply t = .ok (s', m)) :
      Step s s'
  | deleteDoc (s : BackendState) (docId : String) :
      Step s (removeDocument s docId)

/-- Modelled from the spec: the store starts empty. -/
def initState : BackendState := ⟨[], [], [], []⟩

/-- A store state reachable from the empty store by lifecycle steps. -/
def Reachable (s : BackendState) : Prop :=
  Relation.ReflTransGen Step initState s

/-- The forward order on statuses: `uploaded → analyzing → analyzed`,
`error` reachable from the two non-terminal states, `analyzed` and
`error` terminal. -/
def statusLe : DocStatus → DocStatus → Bool
  | .uploaded, _ => true
  | .analyzing, .uploaded => false
  | .analyzing, _ => true
  | .analyzed, .analyzed => true
  | .analyzed, _ => false
  | .error, .error => true
  | .error, _ => false

/-- One round of the client's `pollForAnalysis`
(`DocumentAnalysis.jsx`): given the freshly fetched document status and,
when that status is `"analyzed"`, the result of `getAnalysis`, return
what the client stores and whether it keeps polling.  When the status is
anything else `getAnalysis` is never called. -/
def pollForAnalysis (docStatus : String)
    (analysisResult : Except ApiError AnalysisRec) :
    Option AnalysisRec × Bool :=
  if docStatus == "analyzed" then
    match analysisResult with
    | .ok a => (some a, false)
    | .error _ => (none, true)
  else (none, true)

/-! ## Store lemmas -/

theorem setStatus_cons (k : String) (v : DocStatus)
    (rest : List (String × DocStatus)) (d : String) (st : DocStatus) :
    setStatus ((k, v) :: rest) d st =
      (if k = d then (k, st) else (k, v)) :: setStatus rest d st := rfl

theorem alookup_cons {β : Type} (k : String) (v : β)
    (rest : List (String × β)) (id : String) :
    alookup ((k, v) :: rest) id =
      if k = id then some v else alookup rest id := rfl

theorem alookup_setStatus_self (l : List (String × DocStatus))
    (d : String) (st : DocStatus) :
    alookup (setStatus l d st) d = (alookup l d).map (fun _ => st) := by
  induction l with
  | nil => rfl
  | cons p rest ih =>
      obtain ⟨k, v⟩ := p
      rw [setStatus_cons]
      by_cases hk : k = d
      · rw [if_pos hk, alookup_cons, alookup_cons, if_pos hk, if_pos hk]
        rfl
      · rw [if_neg hk, alookup_cons, alookup_cons, if_neg hk, if_neg hk, ih]

theorem alookup_setStatus_ne (l : List (String × DocStatus))
    (d : String) (st : DocStatus) (id : String) (h : id ≠ d) :
    alookup (setStatus l d st) id = alookup l id := by
  induction l with
  | nil => rfl
  | cons p rest ih =>
      obtain ⟨k, v⟩ := p
      rw [setStatus_cons]
      by_cases hk : k = d
      · have hne : k ≠ id := fun hc => h (hc.symm.trans hk)
        rw [if_pos hk, alookup_cons, alookup_cons, if_neg hne, if_neg hne, ih]
      · rw [if_neg hk, alookup_cons, alookup_cons, ih]

theorem eraseKey_cons {β : Type} (k : String) (v : β)
    (rest : List (String × β)) (d : String) :
    eraseKey ((k, v) :: rest) d =
      if k = d then eraseKey rest d else (k, v) :: eraseKey rest d := rfl

theorem alookup_eraseKey_self {β : Type} (l : List (String × β))
    (d : String) :
    alookup (eraseKey l d) d = none := by
  induction l with
  | nil => rfl
  | cons p rest ih =>
      obtain ⟨k, v⟩ := p
      rw [eraseKey_cons]
      by_cases hk : k = d
      · rw [if_pos hk]; exact ih
      · rw [if_neg hk, alookup_cons, if_neg hk]; exact ih

theorem alookup_eraseKey_ne {β : Type} (l : List (String × β))
    (d : String) (id : String) (h : id ≠ d) :
    alookup (eraseKey l d) id = alookup l id := by
  induction l with
  | nil => rfl
  | cons p rest ih =>
      obtain ⟨k, v⟩ := p
      rw [eraseKey_cons]
      by_cases hk : k = d
      · have hne : k ≠ id := fun hc => h (hc.symm.trans hk)
        rw [if_pos hk, alookup_cons, if_neg hne, ih]
      · rw [if_neg hk, alookup_cons, alookup_cons, ih]

theorem postMessage_ok {s : BackendState} {d sid text reply : String}
    {t : Nat} {s' : BackendState} {m : ChatRecord}
    (h : postMessage s d sid text reply t = .ok (s', m)) :
    s' = { s with chats := s.chats ++
            [⟨d, sid, "user", text, t⟩, ⟨d, sid, "assistant", reply, t⟩] } ∧
    m = ⟨d, sid, "assistant", reply, t⟩ ∧
    (alookup s.docs d).isSome := by
  unfold postMessage at h
  cases hl : alookup s.docs d with
  | none => rw [hl] at h; exact absurd h (by simp)
  | some st =>
      rw [hl] at h
      simp only [Except.ok.injEq, Prod.mk.injEq] at h
      exact ⟨h.1.symm, h.2.symm, by simp⟩

/-! ## Lifecycle invariants -/

/-- Every stored document id has been issued. -/
def docsBounded (s : BackendState) : Prop :=
  ∀ id, alookup s.docs id ≠ none → id ∈ s.usedIds

theorem step_docsBounded {s s' : BackendState} (hstep : Step s s')
    (hb : docsBounded s) : docsBounded s' := by
  cases hstep with
  | upload docId h =>
      intro id hid
      by_cases hd : docId = id
      · subst hd; exact List.mem_cons_self _ _
      · rw [alookup_cons, if_neg hd] at hid
        exact List.mem_cons_of_mem _ (hb id hid)
  | startAnalysis docId h =>
      intro id hid
      by_cases hd : id = docId
      · subst hd; exact hb id (by rw [h]; simp)
      · rw [alookup_setStatus_ne _ _ _ _ hd] at hid
        exact hb id hid
  | finishAnalysis docId a h =>
      intro id hid
      by_cases hd : id = docId
      · subst hd; exact hb id (by rw [h]; simp)
      · rw [alookup_setStatus_ne _ _ _ _ hd] at hid
        exact hb id hid
  | fail docId st h hnt =>
      intro id hid
      by_cases hd : id = docId
      · subst hd; exact hb id (by rw [h]; simp)
      · rw [alookup_setStatus_ne _ _ _ _ hd] at hid
        exact hb id hid
  | chat docId sessionId text reply t s' m h =>
      obtain ⟨hs', _, _⟩ := postMessage_ok h
      subst hs'
      intro id hid
      exact hb id hid
  | deleteDoc docId =>
      intro id hid
      by_cases hd : id = docId
      · subst hd
        rw [show (removeDocument _ id).docs = eraseKey _ id from rfl,
            alookup_eraseKey_self] at hid
        exact absurd rfl hid
      · rw [show (removeDocument _ docId).docs = eraseKey _ docId from rfl,
            alookup_eraseKey_ne _ _ _ hd] at hid
        exact hb id hid

theorem step_usedIds_mono {s s' : BackendState} (hstep : Step s s') :
    s.usedIds ⊆ s'.usedIds := by
  cases hstep with
  | upload docId h => exact fun x hx => List.mem_cons_of_mem _ hx
  | startAnalysis docId h => exact fun _ h => h
  | finishAnalysis docId a h => exact fun _ h => h
  | fail docId st h hnt => exact fun _ h => h
  | chat docId sessionId text reply t s' m h =>
      obtain ⟨hs', _, _⟩ := postMessage_ok h
      subst hs'
      exact fun _ h => h
  | deleteDoc docId => exact fun _ h => h

theorem step_none_stays {s s' : BackendState} (hstep : Step s s')
    {id : String} (hu : id ∈ s.usedIds)
    (hn : alookup s.docs id = none) : alookup s'.docs id = none := by
  cases hstep with
  | upload docId h =>
      have hd : docId ≠ id := fun hc => h (hc ▸ hu)
      rw [alookup_cons, if_neg hd]
      exact hn
  | startAnalysis docId h =>
      by_cases hd : id = docId
      · subst hd; rw [alookup_setStatus_self, hn]; rfl
      · rw [alookup_setStatus_ne _ _ _ _ hd]; exact hn
  | finishAnalysis docId a h =>
      by_cases hd : id = docId
      · subst hd; rw [alookup_setStatus_self, hn]; rfl
      · rw [alookup_setStatus_ne _ _ _ _ hd]; exact hn
  | fail docId st h hnt =>
      by_cases hd : id = docId
      · subst hd; rw [alookup_setStatus_self, hn]; rfl
      · rw [alookup_setStatus_ne _ _ _ _ hd]; exact hn
  | chat docId sessionId text reply t s' m h =>
      obtain ⟨hs', _, _⟩ := postMessage_ok h
      subst hs'
      exact hn
  | deleteDoc docId =>
      by_cases hd : id = docId
      · subst hd
        exact alookup_eraseKey_self _ _
      · rw [show (removeDocument _ docId).docs = eraseKey _ docId from rfl,
            alookup_eraseKey_ne _ _ _ hd]
        exact hn

theorem statusLe_refl (st : DocStatus) : statusLe st st = true := by
  cases st <;> rfl

theorem statusLe_trans {a b c : DocStatus} (h1 : statusLe a b = true)
    (h2 : statusLe b c = true) : statusLe a c = true := by
  cases a <;> cases b <;> cases c <;> simp_all [statusLe]

theorem step_statusLe {s s' : BackendState} (hstep : Step s s')
    (hb : docsBounded s) {id : String} {st st' : DocStatus}
    (h1 : alookup s.docs id = some st)
    (h2 : alookup s'.docs id = some st') :
    statusLe st st' = true := by
  cases hstep with
  | upload docId h =>
      by_cases hd : docId = id
      · subst hd
        exact absurd (hb docId (by rw [h1]; simp)) h
      · rw [alookup_cons, if_neg hd, h1] at h2
        cases h2
        exact statusLe_refl st
  | startAnalysis docId h =>
      by_cases hd : id = docId
      · subst hd
        rw [h] at h1; cases h1
        rw [alookup_setStatus_self, h] at h2; cases h2
        rfl
      · rw [alookup_setStatus_ne _ _ _ _ hd, h1] at h2
        cases h2
        exact statusLe_refl st
  | finishAnalysis docId a h =>
      by_cases hd : id = docId
      · subst hd
        rw [h] at h1; cases h1
        rw [alookup_setStatus_self, h] at h2; cases h2
        rfl
      · rw [alookup_setStatus_ne _ _ _ _ hd, h1] at h2
        cases h2
        exact statusLe_refl st
  | fail docId st0 h hnt =>
      by_cases hd : id = docId
      · subst hd
        rw [h] at h1; cases h1
        rw [alookup_setStatus_self, h] at h2; cases h2
        rcases hnt with h' | h' <;> subst h' <;> rfl
      · rw [alookup_setStatus_ne _ _ _ _ hd, h1] at h2
        cases h2
        exact statusLe_refl st
  | chat docId sessionId text reply t s' m h =>
      obtain ⟨hs', _, _⟩ := postMessage_ok h
      subst hs'
      rw [h1] at h2
      cases h2
      exact statusLe_refl st
  | deleteDoc docId =>
      by_cases hd : id = docId
      · subst hd
        rw [show (removeDocument _ id).docs = eraseKey _ id from rfl,
            alookup_eraseKey_self] at h2
        cases h2
      · rw [show (removeDocument _ docId).docs = eraseKey _ docId from rfl,
            alookup_eraseKey_ne _ _ _ hd, h1] at h2
        cases h2
        exact statusLe_refl st

theorem rtg_docsBounded {s s' : BackendState} (hb : docsBounded s)
    (hr : Relation.ReflTransGen Step s s') : docsBounded s' := by
  induction hr with
  | refl => exact hb
  | tail _ hstep ih => exact step_docsBounded hstep ih

theorem rtg_usedIds_mono {s s' : BackendState}
    (hr : Relation.ReflTransGen Step s s') : s.usedIds ⊆ s'.usedIds := by
  induction hr with
  | refl => exact fun _ h => h
  | tail _ hstep ih => exact ih.trans (step_usedIds_mono hstep)

theorem rtg_statusLe {s s' : BackendState} (hb : docsBounded s)
    (hr : Relation.ReflTransGen Step s s') :
    ∀ id st st', alookup s.docs id = some st →
      alookup s'.docs id = some st' → statusLe st st' = true := by
  induction hr with
  | refl =>
      intro id st st' h1 h2
      rw [h1] at h2
      cases h2
      exact statusLe_refl st
  | tail hab hstep ih =>
      intro id st st' h1 h2
      rename_i b c
      cases hcb : alookup b.docs id with
      | some stb =>
          exact statusLe_trans (ih id st stb h1 hcb)
            (step_statusLe hstep (rtg_docsBounded hb hab) hcb h2)
      | none =>
          have hu : id ∈ b.usedIds :=
            rtg_usedIds_mono hab (hb id (by rw [h1]; simp))
          rw [step_none_stays hstep hu hcb] at h2
          cases h2

/-- The C1 invariant: an Analysis record exists exactly for the
documents whose status is `analyzed`. -/
def analysisComplete (s : BackendState) : Prop :=
  ∀ id, (alookup s.analyses id).isSome ↔ alookup s.docs id = some .analyzed

theorem step_analysisComplete {s s' : BackendState} (hstep : Step s s')
    (hb : docsBounded s) (ha : analysisComplete s) : analysisComplete s' := by
  cases hstep with
  | upload docId h =>
      intro id
      by_cases hd : docId = id
      · subst hd
        have hnone : alookup s.docs docId = none := by
          cases hc : alookup s.docs docId with
          | none => rfl
          | some _ => exact absurd (hb docId (by rw [hc]; simp)) h
        rw [alookup_cons, if_pos rfl]
        simp only [ha docId, hnone]
        simp
      · rw [alookup_cons, if_neg hd]
        exact ha id
  | startAnalysis docId h =>
      intro id
      by_cases hd : id = docId
      · subst hd
        rw [alookup_setStatus_self, h]
        simp only [ha id, h]
        simp
      · rw [alookup_setStatus_ne _ _ _ _ hd]
        exact ha id
  | finishAnalysis docId a h =>
      intro id
      by_cases hd : id = docId
      · subst hd
        rw [alookup_cons, if_pos rfl, alookup_setStatus_self, h]
        simp
      · rw [alookup_cons, if_neg (fun hc => hd hc.symm),
            alookup_setStatus_ne _ _ _ _ hd]
        exact ha id
  | fail docId st0 h hnt =>
      intro id
      by_cases hd : id = docId
      · subst hd
        rw [alookup_setStatus_self, h]
        have : ¬ alookup s.docs id = some .analyzed := by
          rw [h]
          rcases hnt with h' | h' <;> subst h' <;> simp
        simp only [ha id]
        simp_all
      · rw [alookup_setStatus_ne _ _ _ _ hd]
        exact ha id
  | chat docId sessionId text reply t s' m h =>
      obtain ⟨hs', _, _⟩ := postMessage_ok h
      subst hs'
      exact ha
  | deleteDoc docId =>
      intro id
      by_cases hd : id = docId
      · subst hd
        rw [show (removeDocument _ id).docs = eraseKey _ id from rfl,
            show (removeDocument _ id).analyses = eraseKey _ id from rfl,
            alookup_eraseKey_self, alookup_eraseKey_self]
        simp
      · rw [show (removeDocument _ docId).docs = eraseKey _ docId from rfl,
            show (removeDocument _ docId).analyses = eraseKey _ docId from rfl,
            alookup_eraseKey_ne _ _ _ hd, alookup_eraseKey_ne _ _ _ hd]
        exact ha id

theorem initState_docsBounded : docsBounded initState := by
  intro id h
  exact absurd rfl h

theorem reach_docsBounded {s : BackendState} (hre : Reachable s) :
    docsBounded s :=
  rtg_docsBounded initState_docsBounded hre

theorem reach_analysisComplete {s : BackendState} (hre : Reachable s) :
    analysisComplete s := by
  induction hre with
  | refl => intro id; simp [initState, alookup]
  | tail hab hstep ih =>
      exact step_analysisComplete hstep (rtg_docsBounded initState_docsBounded hab) ih

/-! ## Claim theorems: upload validation -/

/-- Claim C3: for every file with an allowed MIME type, upload validation
accepts a file whose size is exactly the 10 MB ceiling
(`10 * 1024 * 1024` bytes) and rejects as invalid input a file that is
one byte over the ceiling. -/
theorem upload_size_boundary (st : UploadFormState) (f : FileInfo)
    (htype : allowedTypes.contains f.type = true) :
    (f.size = 10 * 1024 * 1024 →
       validateFile f = .accepted ∧ (handleFile st f).file = some f) ∧
    (f.size = 10 * 1024 * 1024 + 1 →
       validateFile f = .tooLarge ∧ handleFile st f = st) := by
  constructor
  · intro hsize
    have htype2 : f.type ∈ allowedTypes := by simpa using htype
    have hv : validateFile f = .accepted := by
      simp [validateFile, htype2, hsize]
    refine ⟨hv, ?_⟩
    simp only [handleFile, hv]
    by_cases hn : st.documentName = "" <;> simp [hn]
  · intro hsize
    have htype2 : f.type ∈ allowedTypes := by simpa using htype
    have hv : validateFile f = .tooLarge := by
      simp [validateFile, htype2, hsize]
    exact ⟨hv, by simp only [handleFile, hv]⟩

/-- Witness for C3 at a concrete 10 MB (and 10 MB + 1) PDF file. -/
theorem upload_size_boundary_witness :
    validateFile ⟨"contract.pdf", "application/pdf", 10 * 1024 * 1024⟩
      = .accepted ∧
    validateFile ⟨"contract.pdf", "application/pdf", 10 * 1024 * 1024 + 1⟩
      = .tooLarge :=
  ⟨((upload_size_boundary ⟨none, "", "", ""⟩
      ⟨"contract.pdf", "application/pdf", 10 * 1024 * 1024⟩ rfl).1 rfl).1,
   ((upload_size_boundary ⟨none, "", "", ""⟩
      ⟨"contract.pdf", "application/pdf", 10 * 1024 * 1024 + 1⟩ rfl).2 rfl).1⟩

/-- Claim C4: a file whose MIME type is outside the allow-list is
rejected as an invalid file type regardless of the file's name
(extension); a file with an allowed MIME type passes the type check. -/
theorem upload_type_allowlist (f : FileInfo) :
    (allowedTypes.contains f.type = false →
       validateFile f = .invalidType ∧ ∀ st, handleFile st f = st) ∧
    (allowedTypes.contains f.type = true →
       validateFile f ≠ .invalidType) ∧
    (∀ n, validateFile { f with name := n } = validateFile f) := by
  refine ⟨?_, ?_, fun n => rfl⟩
  · intro h
    have h2 : f.type ∉ allowedTypes := by simpa using h
    have hv : validateFile f = .invalidType := by
      simp [validateFile, h2]
    exact ⟨hv, fun st => by simp only [handleFile, hv]⟩
  · intro h
    simp only [validateFile, h]
    by_cases hs : f.size > 10 * 1024 * 1024 <;> simp [hs]

/-- Witness for C4: a PNG named like a PDF is rejected by type; a real
PDF passes the type check. -/
theorem upload_type_allowlist_witness :
    validateFile ⟨"evil.pdf", "image/png", 5⟩ = .invalidType ∧
    validateFile ⟨"ok.pdf", "application/pdf", 5⟩ ≠ .invalidType :=
  ⟨((upload_type_allowlist ⟨"evil.pdf", "image/png", 5⟩).1 rfl).1,
   (upload_type_allowlist ⟨"ok.pdf", "application/pdf", 5⟩).2.1 rfl⟩

/-- Claim C10: on a valid file selection, an empty document-name field is
prefilled with the file's name minus its final extension, a non-empty
one is left unchanged, and the document-type and notes fields are never
changed. -/
theorem handleFile_frame (st : UploadFormState) (f : FileInfo)
    (hacc : validateFile f = .accepted) :
    (st.documentName = "" →
       (handleFile st f).documentName = stripExt f.name) ∧
    (st.documentName ≠ "" →
       (handleFile st f).documentName = st.documentName) ∧
    (handleFile st f).documentType = st.documentType ∧
    (handleFile st f).notes = st.notes := by
  simp only [handleFile, hacc]
  by_cases hn : st.documentName = "" <;> simp [hn]

/-- Witness for C10: selecting `contract.pdf` with an empty name field
prefills `"contract"`; with a non-empty name field nothing changes, and
type and notes survive both ways. -/
theorem handleFile_frame_witness :
    (handleFile ⟨none, "", "lease", "my notes"⟩
       ⟨"contract.pdf", "application/pdf", 5120⟩).documentName
      = stripExt "contract.pdf" ∧
    stripExt "contract.pdf" = "contract" ∧
    (handleFile ⟨none, "kept name", "lease", "my notes"⟩
       ⟨"contract.pdf", "application/pdf", 5120⟩).documentName
      = "kept name" ∧
    (handleFile ⟨none, "", "lease", "my notes"⟩
       ⟨"contract.pdf", "application/pdf", 5120⟩).documentType = "lease" ∧
    (handleFile ⟨none, "", "lease", "my notes"⟩
       ⟨"contract.pdf", "application/pdf", 5120⟩).notes = "my notes" :=
  ⟨(handleFile_frame ⟨none, "", "lease", "my notes"⟩
      ⟨"contract.pdf", "application/pdf", 5120⟩ rfl).1 rfl,
   by decide,
   (handleFile_frame ⟨none, "kept name", "lease", "my notes"⟩
      ⟨"contract.pdf", "application/pdf", 5120⟩ rfl).2.1 (by decide),
   (handleFile_frame ⟨none, "", "lease", "my notes"⟩
      ⟨"contract.pdf", "application/pdf", 5120⟩ rfl).2.2.1,
   (handleFile_frame ⟨none, "", "lease", "my notes"⟩
      ⟨"contract.pdf", "application/pdf", 5120⟩ rfl).2.2.2⟩

/-! ## Claim theorems: API client -/

/-- Claim C8 counterexample: for a 400 response whose body carries the
`detail` field with the empty string as value, the interceptor surfaces
"Bad request" and not the detail field's value (JavaScript `||` treats
the empty string as absent). -/
theorem interceptor_detail_counterexample :
    handleResponseError ⟨some 400, some ""⟩ = .message "Bad request" ∧
    handleResponseError ⟨some 400, some ""⟩ ≠ .message "" := by
  constructor
  · rfl
  · decide

/-- Claim C8 (amended): the surfaced error is determined solely by the
status code: 404 gives "Resource not found"; 400 gives the body's
`detail` field when that is a non-empty string and "Bad request" when it
is absent or empty; any status of 500 or above gives the server-error
message; all other errors are re-thrown unchanged. -/
theorem interceptor_status_mapping (e : RespError) :
    (e.status = some 404 →
       handleResponseError e = .message "Resource not found") ∧
    (e.status = some 400 →
       (∀ d, e.detail = some d → d ≠ "" →
          handleResponseError e = .message d) ∧
       ((e.detail = none ∨ e.detail = some "") →
          handleResponseError e = .message "Bad request")) ∧
    (∀ n, e.status = some n → 500 ≤ n →
       handleResponseError e = .message "Server error. Please try again later.") ∧
    ((∀ n, e.status = some n → n ≠ 404 ∧ n ≠ 400 ∧ n < 500) →
       handleResponseError e = .rethrown e) := by
  obtain ⟨st, dt⟩ := e
  refine ⟨?_, ?_, ?_, ?_⟩
  · rintro rfl
    rfl
  · rintro rfl
    constructor
    · rintro d rfl hd
      simp [handleResponseError, jsStringOr, hd]
    · rintro (rfl | rfl) <;> rfl
  · rintro n rfl hn
    have h4 : n ≠ 404 := by omega
    have h0 : n ≠ 400 := by omega
    simp [handleResponseError, h4, h0, isServerError, hn]
  · intro hall
    cases st with
    | none => rfl
    | some n =>
        obtain ⟨h4, h0, h5⟩ := hall n rfl
        simp [handleResponseError, h4, h0, isServerError, Nat.not_le.mpr h5]

/-- Witness for the amended C8 at concrete statuses 404, 400 (with and
without a non-empty detail), 503 and 401. -/
theorem interceptor_status_mapping_witness :
    handleResponseError ⟨some 404, none⟩ = .message "Resource not found" ∧
    handleResponseError ⟨some 400, some "File type not allowed"⟩
      = .message "File type not allowed" ∧
    handleResponseError ⟨some 400, none⟩ = .message "Bad request" ∧
    handleResponseError ⟨some 503, none⟩
      = .message "Server error. Please try again later." ∧
    handleResponseError ⟨some 401, none⟩ = .rethrown ⟨some 401, none⟩ :=
  ⟨(interceptor_status_mapping ⟨some 404, none⟩).1 rfl,
   ((interceptor_status_mapping ⟨some 400, some "File type not allowed"⟩).2.1
      rfl).1 _ rfl (by decide),
   ((interceptor_status_mapping ⟨some 400, none⟩).2.1 rfl).2 (Or.inl rfl),
   (interceptor_status_mapping ⟨some 503, none⟩).2.2.1 503 rfl (by decide),
   (interceptor_status_mapping ⟨some 401, none⟩).2.2.2
     (fun n hn => by cases hn; exact ⟨by decide, by decide, by decide⟩)⟩

/-- Claim C9 counterexample: with a backend URL ending in two slashes the
normalization removes only one of them, so the computed API base does
contain a double slash immediately before `api`. -/
theorem apiBase_double_slash_counterexample :
    apiBase "http://h//" = "http://h//api" ∧
    List.IsSuffix "//api".data ("http://h//api").data := by
  constructor
  · rfl
  · decide

theorem cons_suffix_append {a : Char} {t l : List Char}
    (h : List.IsSuffix (a :: t) (l ++ t)) : ∃ l2, l = l2 ++ [a] := by
  obtain ⟨p, hp⟩ := h
  rw [show a :: t = [a] ++ t from rfl, ← List.append_assoc] at hp
  exact ⟨p, (List.append_left_injective t hp).symm⟩

/-- Claim C9 (amended): the computed API base is the backend URL value
with exactly one trailing slash removed (when present) followed by
`"/api"`, so a value with a single trailing slash and the same value
without it give the identical base, and an unset value gives `"/api"`;
no double slash appears before `api` provided the configured value does
not itself end in two (or more) slashes. -/
theorem apiBase_normalization :
    (∀ v, endsWithSlash v = false → apiBase (v ++ "/") = apiBase v) ∧
    apiBase "" = "/api" ∧
    (∀ raw, ¬ List.IsSuffix "//".data raw.data →
       ¬ List.IsSuffix "//api".data (apiBase raw).data) := by
  refine ⟨?_, rfl, ?_⟩
  · intro v hv
    obtain ⟨d⟩ := v
    have hslash : endsWithSlash (String.mk d ++ "/") = true := by
      simp [endsWithSlash, String.data_append, List.getLast?_concat]
    have hd : (String.mk d ++ "/").data = d ++ ['/'] := by
      rw [String.data_append]
    simp only [apiBase, normalizeBackendUrl, hslash, hv, if_true,
      Bool.false_eq_true, if_false, hd, List.dropLast_concat]
  · intro raw hno hsuf
    obtain ⟨d⟩ := raw
    by_cases h : endsWithSlash (String.mk d) = true
    · cases d using List.reverseRecOn with
      | nil => exact absurd h (by decide)
      | append_singleton l0 c _ =>
          have hc : c = '/' := by
            have := h
            simp [endsWithSlash, List.getLast?_concat] at this
            exact this
          subst hc
          have hdata : (apiBase (String.mk (l0 ++ ['/']))).data
              = l0 ++ "/api".data := by
            simp only [apiBase, normalizeBackendUrl, h, if_true,
              String.data_append, List.dropLast_concat]
          rw [hdata] at hsuf
          have hsplit : List.IsSuffix ('/' :: "/api".data)
              (l0 ++ "/api".data) := hsuf
          obtain ⟨l2, hl2⟩ := cons_suffix_append hsplit
          exact hno ⟨l2, by simp [hl2]⟩
    · have hdata : (apiBase (String.mk d)).data = d ++ "/api".data := by
        simp only [apiBase, normalizeBackendUrl, h,
          Bool.false_eq_true, if_false, String.data_append]
      rw [hdata] at hsuf
      have hsplit : List.IsSuffix ('/' :: "/api".data)
          (d ++ "/api".data) := hsuf
      obtain ⟨l2, hl2⟩ := cons_suffix_append hsplit
      exact h (by simp [endsWithSlash, hl2, List.getLast?_concat])

/-- Witness for the amended C9: `"http://h"` and `"http://h/"` both give
`"http://h/api"`, and neither base contains `"//api"`. -/
theorem apiBase_normalization_witness :
    apiBase ("http://h" ++ "/") = apiBase "http://h" ∧
    apiBase "" = "/api" ∧
    ¬ List.IsSuffix "//api".data (apiBase "http://h/").data :=
  ⟨apiBase_normalization.1 "http://h" (by decide),
   apiBase_normalization.2.1,
   apiBase_normalization.2.2 "http://h/" (by decide)⟩

/-! ## Claim theorems: chat -/

/-- Claim C5: a successful send of a non-empty message appends the user
message and then the assistant reply, in arrival order: on the server
history (so a subsequent `getHistory` for that document and session
returns both, user first), and in both client components' message
lists. -/
theorem chat_roundtrip :
    (∀ (s : BackendState) (docId sid text reply : String) (t : Nat)
       (s' : BackendState) (m : ChatRecord),
       postMessage s docId sid text reply t = .ok (s', m) →
       getHistory s' docId sid = getHistory s docId sid ++
         [⟨docId, sid, "user", text, t⟩,
          ⟨docId, sid, "assistant", reply, t⟩]) ∧
    (∀ (st : ChatUIState) (idStr ts : String) (reply : ChatMsg),
       jsTrim st.chatInput ≠ "" → st.chatLoading = false →
       (DocumentAnalysis.handleSendMessage st idStr ts (.ok reply)).chatMessages
         = st.chatMessages ++ [mkUserMessage idStr ts st.chatInput, reply]) ∧
    (∀ (st : ChatUIState) (idStr ts : String) (reply : ChatMsg),
       jsTrim st.chatInput ≠ "" →
       (DocumentChat.handleSendMessage st idStr ts (.ok reply)).chatMessages
         = st.chatMessages ++ [mkUserMessage idStr ts st.chatInput, reply]) := by
  refine ⟨?_, ?_, ?_⟩
  · intro s docId sid text reply t s' m h
    obtain ⟨hs', _, _⟩ := postMessage_ok h
    subst hs'
    simp [getHistory, List.filter_append]
  · intro st idStr ts reply h1 h2
    simp [DocumentAnalysis.handleSendMessage, h1, h2]
  · intro st idStr ts reply h1
    simp [DocumentChat.handleSendMessage, h1]

/-- Witness for C5 at a concrete store, document, session and message. -/
theorem chat_roundtrip_witness :
    getHistory ⟨[("d", .analyzed)], [],
        [⟨"d", "s1", "user", "hi", 5⟩, ⟨"d", "s1", "assistant", "hello", 5⟩],
        ["d"]⟩ "d" "s1"
      = getHistory ⟨[("d", .analyzed)], [], [], ["d"]⟩ "d" "s1" ++
          [⟨"d", "s1", "user", "hi", 5⟩,
           ⟨"d", "s1", "assistant", "hello", 5⟩] ∧
    (DocumentAnalysis.handleSendMessage ⟨[], "hi", false⟩ "1" "t1"
        (.ok ⟨"2", "assistant", "hello", "t2"⟩)).chatMessages
      = [] ++ [mkUserMessage "1" "t1" "hi", ⟨"2", "assistant", "hello", "t2"⟩] ∧
    (DocumentChat.handleSendMessage ⟨[], "hi", false⟩ "1" "t1"
        (.ok ⟨"2", "assistant", "hello", "t2"⟩)).chatMessages
      = [] ++ [mkUserMessage "1" "t1" "hi", ⟨"2", "assistant", "hello", "t2"⟩] :=
  ⟨chat_roundtrip.1 ⟨[("d", .analyzed)], [], [], ["d"]⟩ "d" "s1" "hi" "hello" 5
      _ _ rfl,
   chat_roundtrip.2.1 ⟨[], "hi", false⟩ "1" "t1"
      ⟨"2", "assistant", "hello", "t2"⟩ (by decide) rfl,
   chat_roundtrip.2.2 ⟨[], "hi", false⟩ "1" "t1"
      ⟨"2", "assistant", "hello", "t2"⟩ (by decide)⟩

/-- Claim C6: when a send fails, both components leave the visible
history exactly as it was and keep the user's typed text, and a retry
from the post-failure state appends the user message exactly once (no
duplicates). -/
theorem chat_failure_contract :
    (∀ (st : ChatUIState) (idStr ts : String),
       jsTrim st.chatInput ≠ "" → st.chatLoading = false →
       (DocumentAnalysis.handleSendMessage st idStr ts .err).chatMessages
           = st.chatMessages ∧
       (DocumentAnalysis.handleSendMessage st idStr ts .err).chatInput
           = st.chatInput) ∧
    (∀ (st : ChatUIState) (idStr ts : String),
       jsTrim st.chatInput ≠ "" →
       (DocumentChat.handleSendMessage st idStr ts .err).chatMessages
           = st.chatMessages ∧
       (DocumentChat.handleSendMessage st idStr ts .err).chatInput
           = st.chatInput) ∧
    (∀ (st : ChatUIState) (i1 t1 i2 t2 : String) (reply : ChatMsg),
       jsTrim st.chatInput ≠ "" → st.chatLoading = false →
       (DocumentAnalysis.handleSendMessage
          (DocumentAnalysis.handleSendMessage st i1 t1 .err)
          i2 t2 (.ok reply)).chatMessages
         = st.chatMessages ++ [mkUserMessage i2 t2 st.chatInput, reply]) := by
  have herr : ∀ (st : ChatUIState) (i1 t1 : String),
      jsTrim st.chatInput ≠ "" → st.chatLoading = false →
      DocumentAnalysis.handleSendMessage st i1 t1 .err
        = ⟨st.chatMessages, st.chatInput, false⟩ := by
    intro st i1 t1 h1 h2
    simp [DocumentAnalysis.handleSendMessage, h1, h2,
      List.dropLast_concat]
  refine ⟨?_, ?_, ?_⟩
  · intro st idStr ts h1 h2
    rw [herr st idStr ts h1 h2]
    exact ⟨rfl, rfl⟩
  · intro st idStr ts h1
    constructor <;> simp [DocumentChat.handleSendMessage, h1]
  · intro st i1 t1 i2 t2 reply h1 h2
    rw [herr st i1 t1 h1 h2]
    simp [DocumentAnalysis.handleSendMessage, h1]

/-- Witness for C6 at a concrete failing send followed by a retry. -/
theorem chat_failure_contract_witness :
    (DocumentAnalysis.handleSendMessage
        ⟨[⟨"0", "assistant", "welcome", "t0"⟩], "hi", false⟩
        "1" "t1" .err).chatMessages
      = [⟨"0", "assistant", "welcome", "t0"⟩] ∧
    (DocumentAnalysis.handleSendMessage
        ⟨[⟨"0", "assistant", "welcome", "t0"⟩], "hi", false⟩
        "1" "t1" .err).chatInput = "hi" ∧
    (DocumentChat.handleSendMessage
        ⟨[⟨"0", "assistant", "welcome", "t0"⟩], "hi", false⟩
        "1" "t1" .err).chatMessages
      = [⟨"0", "assistant", "welcome", "t0"⟩] ∧
    (DocumentAnalysis.handleSendMessage
        (DocumentAnalysis.handleSendMessage
          ⟨[⟨"0", "assistant", "welcome", "t0"⟩], "hi", false⟩ "1" "t1" .err)
        "2" "t2" (.ok ⟨"3", "assistant", "hello", "t3"⟩)).chatMessages
      = [⟨"0", "assistant", "welcome", "t0"⟩] ++
          [mkUserMessage "2" "t2" "hi", ⟨"3", "assistant", "hello", "t3"⟩] :=
  ⟨((chat_failure_contract.1
      ⟨[⟨"0", "assistant", "welcome", "t0"⟩], "hi", false⟩
      "1" "t1" (by decide) rfl)).1,
   ((chat_failure_contract.1
      ⟨[⟨"0", "assistant", "welcome", "t0"⟩], "hi", false⟩
      "1" "t1" (by decide) rfl)).2,
   ((chat_failure_contract.2.1
      ⟨[⟨"0", "assistant", "welcome", "t0"⟩], "hi", false⟩
      "1" "t1" (by decide))).1,
   chat_failure_contract.2.2
      ⟨[⟨"0", "assistant", "welcome", "t0"⟩], "hi", false⟩
      "1" "t1" "2" "t2" ⟨"3", "assistant", "hello", "t3"⟩ (by decide) rfl⟩

/-- Claim C7 counterexample: the session-identifier stability sentence
fails when the generated identifier is the empty string (possible, since
`Math.random().toString(36).slice(2)` is `""` when `Math.random()`
returns 0): the first generation stores and returns `""`, but JS
`if (existing)` is falsy on `""`, so the next generation for the same
document regenerates and returns a different identifier. -/
theorem sessionId_empty_counterexample :
    getOrCreateSessionId [] "d" "" = ("", [("chat_session_d", "")]) ∧
    getOrCreateSessionId [("chat_session_d", "")] "d" "xyz"
      = ("xyz", [("chat_session_d", "xyz"), ("chat_session_d", "")]) ∧
    ("xyz" : String) ≠ "" := by
  refine ⟨?_, ?_, by decide⟩ <;> decide

/-- Claim C7 (amended): chat sessions are isolated — a history only ever
contains records of its own document and session, and posting under a
different session (or document) leaves it unchanged — and the
client-side session identifier for a document is stable provided the
stored identifier is non-empty (JS truthiness): once a non-empty
identifier is generated and stored, every later generation for the same
document returns that same identifier and leaves the storage
unchanged. -/
theorem session_isolation :
    (∀ (s : BackendState) (docId docId2 sid sid2 text reply : String)
       (t : Nat) (s' : BackendState) (m : ChatRecord),
       (sid ≠ sid2 ∨ docId ≠ docId2) →
       postMessage s docId2 sid2 text reply t = .ok (s', m) →
       getHistory s' docId sid = getHistory s docId sid) ∧
    (∀ (s : BackendState) (docId sid : String) (m : ChatRecord),
       m ∈ getHistory s docId sid →
       m.documentId = docId ∧ m.sessionId = sid) ∧
    (∀ (store : List (String × String)) (documentId n1 n2 : String),
       n1 ≠ "" →
       getOrCreateSessionId
           (getOrCreateSessionId store documentId n1).2 documentId n2
         = getOrCreateSessionId store documentId n1) := by
  refine ⟨?_, ?_, ?_⟩
  · intro s docId docId2 sid sid2 text reply t s' m hne h
    obtain ⟨hs', _, _⟩ := postMessage_ok h
    subst hs'
    rcases hne with hne | hne <;>
      simp [getHistory, List.filter_append, hne, Ne.symm hne]
  · intro s docId sid m hm
    simp only [getHistory, List.mem_filter, Bool.and_eq_true,
      beq_iff_eq] at hm
    exact hm.2
  · intro store documentId n1 n2 hn1
    cases hlk : store.lookup ("chat_session_" ++ documentId) with
    | some existing =>
        by_cases he : existing = ""
        · subst he
          simp [getOrCreateSessionId, hlk, List.lookup, hn1]
        · simp [getOrCreateSessionId, hlk, he]
    | none =>
        simp [getOrCreateSessionId, hlk, List.lookup, hn1]

/-- Witness for C7 at a concrete store with two sessions and a concrete
`localStorage`. -/
theorem session_isolation_witness :
    getHistory ⟨[("d", .analyzed)], [],
        [⟨"d", "s1", "user", "hi", 5⟩, ⟨"d", "s1", "assistant", "hello", 5⟩,
         ⟨"d", "s2", "user", "other", 6⟩, ⟨"d", "s2", "assistant", "reply", 6⟩],
        ["d"]⟩ "d" "s1"
      = getHistory ⟨[("d", .analyzed)], [],
          [⟨"d", "s1", "user", "hi", 5⟩, ⟨"d", "s1", "assistant", "hello", 5⟩],
          ["d"]⟩ "d" "s1" ∧
    (⟨"d", "s1", "user", "hi", 5⟩ : ChatRecord).documentId = "d" ∧
    getOrCreateSessionId
        (getOrCreateSessionId [] "d" "abc").2 "d" "xyz"
      = getOrCreateSessionId [] "d" "abc" :=
  have habc : ("abc" : String) ≠ "" := by decide
  ⟨session_isolation.1
      ⟨[("d", .analyzed)], [],
        [⟨"d", "s1", "user", "hi", 5⟩, ⟨"d", "s1", "assistant", "hello", 5⟩],
        ["d"]⟩
      "d" "d" "s1" "s2" "other" "reply" 6 _ _ (Or.inl (by decide)) rfl,
   (session_isolation.2.1
      ⟨[("d", .analyzed)], [], [⟨"d", "s1", "user", "hi", 5⟩], ["d"]⟩
      "d" "s1" ⟨"d", "s1", "user", "hi", 5⟩ (by decide)).1,
   session_isolation.2.2 [] "d" "abc" "xyz" habc⟩

/-! ## Claim theorems: document lifecycle -/

/-- A concrete analysis record used to exercise the lifecycle model. -/
def demoAnalysis : AnalysisRec :=
  ⟨7, 5, 8, .medium, "15 minutes", [], [], [], [], []⟩

/-- The store after uploading document `"doc1"`. -/
def demoS1 : BackendState := ⟨[("doc1", .uploaded)], [], [], ["doc1"]⟩

/-- The store after the lifecycle manager starts analysing `"doc1"`. -/
def demoS2 : BackendState := ⟨[("doc1", .analyzing)], [], [], ["doc1"]⟩

/-- The store after the analysis of `"doc1"` completes. -/
def demoS3 : BackendState :=
  ⟨[("doc1", .analyzed)], [("doc1", demoAnalysis)], [], ["doc1"]⟩

theorem demoS1_reachable : Reachable demoS1 :=
  Relation.ReflTransGen.single
    (Step.upload initState "doc1" (List.not_mem_nil "doc1"))

theorem demoS1_to_demoS3 : Relation.ReflTransGen Step demoS1 demoS3 :=
  Relation.ReflTransGen.tail
    (Relation.ReflTransGen.single (Step.startAnalysis demoS1 "doc1" rfl))
    (Step.finishAnalysis demoS2 "doc1" demoAnalysis rfl)

theorem demoS3_reachable : Reachable demoS3 :=
  Relation.ReflTransGen.trans demoS1_reachable demoS1_to_demoS3

/-- Claim C1: in every reachable store state a document's status is
`analyzed` exactly when its Analysis record exists — `getAnalysis`
succeeds precisely for `analyzed` documents and fails with `NotFound`
in every other status — and the polling client only stores an analysis
after observing the status string `"analyzed"`. -/
theorem analyzed_iff_analysis (s : BackendState) (hre : Reachable s) :
    (∀ docId st, alookup s.docs docId = some st →
       ((st = .analyzed → ∃ a, getAnalysis s docId = .ok a) ∧
        (st ≠ .analyzed → getAnalysis s docId = .error .notFound))) ∧
    (∀ status res, status ≠ "analyzed" →
       pollForAnalysis status res = (none, true)) := by
  constructor
  · intro docId st hlk
    have hinv := reach_analysisComplete hre docId
    constructor
    · rintro rfl
      have hs := hinv.mpr hlk
      cases ha : alookup s.analyses docId with
      | none => rw [ha] at hs; cases hs
      | some a => exact ⟨a, by simp [getAnalysis, ha]⟩
    · intro hne
      cases ha : alookup s.analyses docId with
      | some a =>
          have hs := hinv.mp (by rw [ha]; rfl)
          rw [hlk] at hs
          cases hs
          exact absurd rfl hne
      | none => simp [getAnalysis, ha]
  · intro status res hne
    simp [pollForAnalysis, hne]

/-- Witness for C1: in the reachable analyzed state `getAnalysis`
succeeds; in the reachable uploaded state it fails with `NotFound`; the
poller keeps waiting on status `"analyzing"`. -/
theorem analyzed_iff_analysis_witness :
    (∃ a, getAnalysis demoS3 "doc1" = .ok a) ∧
    getAnalysis demoS1 "doc1" = .error .notFound ∧
    pollForAnalysis "analyzing" (.error .notFound) = (none, true) :=
  ⟨((analyzed_iff_analysis demoS3 demoS3_reachable).1 "doc1" .analyzed rfl).1
      rfl,
   ((analyzed_iff_analysis demoS1 demoS1_reachable).1 "doc1" .uploaded rfl).2
      (by decide),
   (analyzed_iff_analysis demoS1 demoS1_reachable).2 "analyzing"
      (.error .notFound) (by decide)⟩

/-- Claim C2: over any run from a reachable state, a document's status
only ever moves forward in the `statusLe` order (`uploaded → analyzing →
analyzed`, with `error` reachable only from the two non-terminal
states); `analyzed` and `error` are terminal — a document there never
changes status again — and the transition to `error` is indeed possible
from every non-terminal state. -/
theorem status_monotone :
    (∀ s s', Reachable s → Relation.ReflTransGen Step s s' →
       ∀ id st st', alookup s.docs id = some st →
         alookup s'.docs id = some st' → statusLe st st' = true) ∧
    (∀ st st', statusLe st st' = true →
       (st = .analyzed ∨ st = .error) → st' = st) ∧
    (∀ s id st, alookup s.docs id = some st →
       (st = .uploaded ∨ st = .analyzing) →
       Step s { s with docs := setStatus s.docs id .error }) := by
  refine ⟨?_, ?_, ?_⟩
  · intro s s' hre hr
    exact rtg_statusLe (reach_docsBounded hre) hr
  · intro st st' h1 h2
    cases st <;> cases st' <;> simp_all [statusLe]
  · intro s id st h1 h2
    exact Step.fail s id st h1 h2

/-- Witness for C2 on the concrete run `demoS1 → demoS3`: the status of
`"doc1"` moves forward from `uploaded` to `analyzed`; terminality
applied at `analyzed`; the error transition applied at the uploaded
state. -/
theorem status_monotone_witness :
    statusLe .uploaded .analyzed = true ∧
    DocStatus.analyzed = DocStatus.analyzed ∧
    Step demoS1 { demoS1 with docs := setStatus demoS1.docs "doc1" .error } :=
  ⟨status_monotone.1 demoS1 demoS3 demoS1_reachable demoS1_to_demoS3
      "doc1" .uploaded .analyzed rfl rfl,
   status_monotone.2.1 .analyzed .analyzed rfl (Or.inl rfl),
   status_monotone.2.2 demoS1 "doc1" .uploaded rfl (Or.inl rfl)⟩

end LegalClear
